import Mathlib

/-!
Verification of the option-resolution logic in
`sdks/go/pkg/beam/options/jobopts/options.go` (package `jobopts`).

The Go package holds process-wide raw option values (`Endpoint`, `JobName`,
`ContainerImage`, `Experiments`, `Async`, `InternalJavaRunner`) populated by
the flag front end, and exposes accessor functions that resolve them. We
embed the mutable package-level state as an explicit `JobOptions` record
threaded through each accessor; the ambient time (`time.Now().UnixNano()`),
the `USER` environment variable, and the diagnostic log sink become explicit
inputs/outputs.
-/

namespace Jobopts

/-- The package-level option state: one field per `flag` variable declared in
`options.go`. -/
structure JobOptions where
  Endpoint : String
  JobName : String
  ContainerImage : String
  Experiments : String
  Async : Bool
  InternalJavaRunner : String
deriving DecidableEq, Repr

/-- The state right after flag registration, before the front end binds any
command-line value: every string flag defaults to `""`, `async` to `false`. -/
def initialOptions : JobOptions :=
  { Endpoint := ""
    JobName := ""
    ContainerImage := ""
    Experiments := ""
    Async := false
    InternalJavaRunner := "" }

/-- Embeds `GetEndpoint`:
`if *Endpoint == "" { return "", fmt.Errorf("no job service endpoint specified. Use --endpoint=<endpoint>") }; return *Endpoint, nil`.
The `(string, error)` pair becomes `Except String String`; the function reads
but never writes the state. -/
def GetEndpoint (opts : JobOptions) : Except String String :=
  if opts.Endpoint = "" then
    Except.error "no job service endpoint specified. Use --endpoint=<endpoint>"
  else
    Except.ok opts.Endpoint

/-- Embeds `GetJobName`:
`if *JobName == "" { *JobName = fmt.Sprintf("go-job-%v", time.Now().UnixNano()) }; return *JobName`.
`now` is the value of `time.Now().UnixNano()` (an `int64`, rendered in
decimal by `%v`, which is what `toString : Int → String` produces); the
returned state reflects the write-back to the package-level `JobName`. -/
def GetJobName (now : Int) (opts : JobOptions) : String × JobOptions :=
  if opts.JobName = "" then
    let name := "go-job-" ++ toString now
    (name, { opts with JobName := name })
  else
    (opts.JobName, opts)

/-- Embeds `os.ExpandEnv("$USER-docker-apache.bintray.io/beam/go:latest")`:
`$USER` is replaced by the value of the `USER` environment variable, or by
the empty string when that variable is unset (`-` ends the variable name, so
the remainder of the literal is copied verbatim). -/
def expandEnvUserTemplate (user : Option String) : String :=
  user.getD "" ++ "-docker-apache.bintray.io/beam/go:latest"

/-- Embeds `GetContainerImage`:
`if *ContainerImage == "" { *ContainerImage = os.ExpandEnv(...); log.Infof(ctx, "No container image specified. Using dev image: '%v'", *ContainerImage) }; return *ContainerImage`.
`user` is the `USER` environment variable (`none` when unset). The third
component collects the diagnostic messages emitted by this single call
(`log.Infof` formats `%v` as the string itself). -/
def GetContainerImage (user : Option String) (opts : JobOptions) :
    String × JobOptions × List String :=
  if opts.ContainerImage = "" then
    let img := expandEnvUserTemplate user
    (img, { opts with ContainerImage := img },
      ["No container image specified. Using dev image: '" ++ img ++ "'"])
  else
    (opts.ContainerImage, opts, [])

/-- Embeds `strings.Split(s, ",")` for a one-character separator, on the
character list underlying the string: the result is the list of (possibly
empty) runs between occurrences of `','`, in textual order. On `[]` it
returns `[[]]`, exactly as `strings.Split("", ",")` returns `[""]`. -/
def splitOnComma : List Char → List (List Char)
  | [] => [[]]
  | c :: cs =>
    if c = ',' then
      [] :: splitOnComma cs
    else
      match splitOnComma cs with
      | [] => [[c]]
      | t :: ts => (c :: t) :: ts

/-- Embeds `GetExperiments`:
`if *Experiments == "" { return nil }; return strings.Split(*Experiments, ",")`.
The function only reads the state; the returned state records that no field
is written. -/
def GetExperiments (opts : JobOptions) : List String × JobOptions :=
  if opts.Experiments = "" then
    ([], opts)
  else
    ((splitOnComma opts.Experiments.data).map String.mk, opts)

/-- Joining a list of character-list tokens with a single `','` between
consecutive tokens. -/
def joinCommaL : List (List Char) → List Char
  | [] => []
  | [t] => t
  | t :: t' :: ts => t ++ ',' :: joinCommaL (t' :: ts)

/-- Joining a list of string tokens with a single comma between consecutive
tokens (the inverse direction of the experiment split). -/
def joinComma : List String → String
  | [] => ""
  | [t] => t
  | t :: t' :: ts => t ++ "," ++ joinComma (t' :: ts)

end Jobopts

namespace Jobopts

lemma splitOnComma_ne_nil (cs : List Char) : splitOnComma cs ≠ [] := by
  induction cs with
  | nil => simp [splitOnComma]
  | cons c cs ih =>
    simp only [splitOnComma]
    split
    · simp
    · cases h : splitOnComma cs with
      | nil => simp
      | cons t ts => simp

lemma joinCommaL_splitOnComma (cs : List Char) : joinCommaL (splitOnComma cs) = cs := by
  induction cs with
  | nil => rfl
  | cons c cs ih =>
    by_cases hc : c = ','
    · subst hc
      obtain ⟨t, ts, h⟩ := List.exists_cons_of_ne_nil (splitOnComma_ne_nil cs)
      simp only [splitOnComma, if_pos rfl, h, joinCommaL]
      rw [← h, ih]
      simp
    · cases h : splitOnComma cs with
      | nil => exact absurd h (splitOnComma_ne_nil cs)
      | cons t ts =>
        simp only [splitOnComma, if_neg hc, h]
        cases ts with
        | nil =>
          simp only [joinCommaL]
          rw [h] at ih
          simp only [joinCommaL] at ih
          simp [ih]
        | cons t' ts' =>
          simp only [joinCommaL]
          rw [h] at ih
          simp only [joinCommaL] at ih
          simp [ih]

lemma length_splitOnComma (cs : List Char) :
    (splitOnComma cs).length = cs.count ',' + 1 := by
  induction cs with
  | nil => rfl
  | cons c cs ih =>
    by_cases hc : c = ','
    · subst hc
      simp [splitOnComma, ih, List.count_cons]
    · cases h : splitOnComma cs with
      | nil => exact absurd h (splitOnComma_ne_nil cs)
      | cons t ts =>
        rw [h] at ih
        simp only [splitOnComma, if_neg hc, h, List.length_cons, List.count_cons]
        simp only [List.length_cons] at ih
        simp [ih, hc]

lemma joinComma_map_mk (l : List (List Char)) :
    joinComma (l.map String.mk) = String.mk (joinCommaL l) := by
  match l with
  | [] => rfl
  | [t] => rfl
  | t :: t' :: ts =>
    have ih := joinComma_map_mk (t' :: ts)
    simp only [List.map_cons, joinComma, joinCommaL] at ih ⊢
    rw [ih]
    show String.mk ((t ++ [',']) ++ joinCommaL (t' :: ts)) = _
    exact congrArg String.mk (by simp)

end Jobopts

namespace Jobopts

lemma append_ne_empty_of_left (p t : String) (hp : p.data ≠ []) : p ++ t ≠ "" := by
  cases p with
  | mk a =>
    cases t with
    | mk b =>
      intro h
      have hd : a ++ b = [] := congrArg String.data h
      exact hp (List.append_eq_nil.mp hd).1

lemma append_ne_empty_of_right (p t : String) (ht : t.data ≠ []) : p ++ t ≠ "" := by
  cases p with
  | mk a =>
    cases t with
    | mk b =>
      intro h
      have hd : a ++ b = [] := congrArg String.data h
      exact ht (List.append_eq_nil.mp hd).2

/-- C1: on an empty raw `Endpoint`, `GetEndpoint` returns the
missing-required-option error, whose message contains the option name
`endpoint` and the flag syntax `--endpoint=<endpoint>`; on a non-empty raw
`Endpoint`, it returns exactly the raw value with no error. -/
theorem getEndpoint_missing_or_passthrough (opts : JobOptions) :
    (opts.Endpoint = "" →
      GetEndpoint opts =
        Except.error "no job service endpoint specified. Use --endpoint=<endpoint>" ∧
      "no job service endpoint specified. Use --endpoint=<endpoint>" =
        "no job service " ++ "endpoint" ++ " specified. Use --endpoint=<endpoint>" ∧
      "no job service endpoint specified. Use --endpoint=<endpoint>" =
        "no job service endpoint specified. Use " ++ "--endpoint=<endpoint>") ∧
    (opts.Endpoint ≠ "" → GetEndpoint opts = Except.ok opts.Endpoint) := by
  constructor
  · intro h
    exact ⟨by simp [GetEndpoint, h], rfl, rfl⟩
  · intro h
    simp [GetEndpoint, h]

/-- Witness for C1 at the unset state and at `Endpoint = "localhost:8099"`. -/
theorem getEndpoint_missing_or_passthrough_wit :
    GetEndpoint initialOptions =
      Except.error "no job service endpoint specified. Use --endpoint=<endpoint>" ∧
    GetEndpoint { initialOptions with Endpoint := "localhost:8099" } =
      Except.ok "localhost:8099" :=
  ⟨((getEndpoint_missing_or_passthrough initialOptions).1 rfl).1,
    (getEndpoint_missing_or_passthrough
      { initialOptions with Endpoint := "localhost:8099" }).2 (by decide)⟩

/-- C2: on an empty raw `JobName`, `GetJobName` returns the string
`"go-job-"` followed by the decimal rendering of the current nanosecond
timestamp — in particular a non-empty string beginning with the literal
`"go-job-"` — and persists that string back into the raw field. -/
theorem getJobName_synthesizes_on_empty (now : Int) (opts : JobOptions)
    (h : opts.JobName = "") :
    (GetJobName now opts).1 = "go-job-" ++ toString now ∧
    (GetJobName now opts).1 ≠ "" ∧
    (GetJobName now opts).2.JobName = (GetJobName now opts).1 := by
  have e1 : (GetJobName now opts).1 = "go-job-" ++ toString now := by
    simp [GetJobName, h]
  have e2 : (GetJobName now opts).2.JobName = "go-job-" ++ toString now := by
    simp [GetJobName, h]
  refine ⟨e1, ?_, by rw [e2, e1]⟩
  rw [e1]
  exact append_ne_empty_of_left _ _ (by decide)

/-- Witness for C2 at the unset state with timestamp 42. -/
theorem getJobName_synthesizes_on_empty_wit :
    (GetJobName 42 initialOptions).1 = "go-job-" ++ toString (42 : Int) ∧
    (GetJobName 42 initialOptions).1 ≠ "" ∧
    (GetJobName 42 initialOptions).2.JobName = (GetJobName 42 initialOptions).1 :=
  getJobName_synthesizes_on_empty 42 initialOptions rfl

/-- C3: calling `GetJobName` twice in sequence, with no external mutation in
between, yields the identical string both times and leaves the state of the
first call untouched — the second call's timestamp `now₂` is irrelevant, so
nothing is recomputed or rewritten. -/
theorem getJobName_idempotent (now₁ now₂ : Int) (opts : JobOptions) :
    (GetJobName now₂ (GetJobName now₁ opts).2).1 = (GetJobName now₁ opts).1 ∧
    (GetJobName now₂ (GetJobName now₁ opts).2).2 = (GetJobName now₁ opts).2 := by
  by_cases h : opts.JobName = ""
  · have hne : ("go-job-" ++ toString now₁ : String) ≠ "" :=
      append_ne_empty_of_left _ _ (by decide)
    simp [GetJobName, h, hne]
  · simp [GetJobName, h]

/-- C4: on a non-empty raw `JobName`, `GetJobName` returns that value
unchanged and does not write to the state. -/
theorem getJobName_explicit_wins (now : Int) (opts : JobOptions)
    (h : opts.JobName ≠ "") :
    (GetJobName now opts).1 = opts.JobName ∧ (GetJobName now opts).2 = opts := by
  simp [GetJobName, h]

/-- Witness for C4 at `JobName = "my-job"`. -/
theorem getJobName_explicit_wins_wit :
    (GetJobName 7 { initialOptions with JobName := "my-job" }).1 = "my-job" ∧
    (GetJobName 7 { initialOptions with JobName := "my-job" }).2 =
      { initialOptions with JobName := "my-job" } :=
  getJobName_explicit_wins 7 { initialOptions with JobName := "my-job" } (by decide)

end Jobopts

namespace Jobopts

/-- C5: on an empty raw `ContainerImage`, `GetContainerImage` synthesizes the
default image by concatenating the `USER` environment value with the fixed
template `"-docker-apache.bintray.io/beam/go:latest"`, persists it back into
the raw field, and the result is non-empty; the operation cannot fail (it
totally returns a string). -/
theorem getContainerImage_default_on_empty (user : Option String)
    (opts : JobOptions) (h : opts.ContainerImage = "") :
    (GetContainerImage user opts).1 =
      user.getD "" ++ "-docker-apache.bintray.io/beam/go:latest" ∧
    (GetContainerImage user opts).2.1.ContainerImage = (GetContainerImage user opts).1 ∧
    (GetContainerImage user opts).1 ≠ "" := by
  have e1 : (GetContainerImage user opts).1 =
      user.getD "" ++ "-docker-apache.bintray.io/beam/go:latest" := by
    simp [GetContainerImage, h, expandEnvUserTemplate]
  have e2 : (GetContainerImage user opts).2.1.ContainerImage =
      user.getD "" ++ "-docker-apache.bintray.io/beam/go:latest" := by
    simp [GetContainerImage, h, expandEnvUserTemplate]
  refine ⟨e1, by rw [e2, e1], ?_⟩
  rw [e1]
  exact append_ne_empty_of_right _ _ (by decide)

/-- Witness for C5 with `USER=alice` and the unset state. -/
theorem getContainerImage_default_on_empty_wit :
    (GetContainerImage (some "alice") initialOptions).1 =
      (some "alice").getD "" ++ "-docker-apache.bintray.io/beam/go:latest" ∧
    (GetContainerImage (some "alice") initialOptions).2.1.ContainerImage =
      (GetContainerImage (some "alice") initialOptions).1 ∧
    (GetContainerImage (some "alice") initialOptions).1 ≠ "" :=
  getContainerImage_default_on_empty (some "alice") initialOptions rfl

/-- C6: on an empty raw `ContainerImage` the call emits exactly one
diagnostic; on a non-empty raw value it emits none; and a second call after
the first (with no external reset) returns the same string and emits no
further diagnostic. -/
theorem getContainerImage_diagnostics (u₁ u₂ : Option String)
    (opts : JobOptions) :
    (opts.ContainerImage = "" → ((GetContainerImage u₁ opts).2.2).length = 1) ∧
    (opts.ContainerImage ≠ "" → (GetContainerImage u₁ opts).2.2 = []) ∧
    (GetContainerImage u₂ (GetContainerImage u₁ opts).2.1).1 =
      (GetContainerImage u₁ opts).1 ∧
    (GetContainerImage u₂ (GetContainerImage u₁ opts).2.1).2.2 = [] := by
  by_cases h : opts.ContainerImage = ""
  · have hne : expandEnvUserTemplate u₁ ≠ "" :=
      append_ne_empty_of_right _ _ (by decide)
    refine ⟨fun _ => by simp [GetContainerImage, h], fun hc => absurd h hc, ?_, ?_⟩
    · simp [GetContainerImage, h, hne]
    · simp [GetContainerImage, h, hne]
  · refine ⟨fun hc => absurd hc h, fun _ => by simp [GetContainerImage, h], ?_, ?_⟩
    · simp [GetContainerImage, h]
    · simp [GetContainerImage, h]

/-- Witness for C6: with `USER=alice` then `USER=bob` from the unset state,
the first call emits one diagnostic and the second call returns the same
string with no emission; with a preset image, no diagnostic is emitted. -/
theorem getContainerImage_diagnostics_wit :
    ((GetContainerImage (some "alice") initialOptions).2.2).length = 1 ∧
    (GetContainerImage (some "bob")
        (GetContainerImage (some "alice") initialOptions).2.1).1 =
      (GetContainerImage (some "alice") initialOptions).1 ∧
    (GetContainerImage (some "bob")
        (GetContainerImage (some "alice") initialOptions).2.1).2.2 = [] ∧
    (GetContainerImage (some "alice")
        { initialOptions with ContainerImage := "img:1" }).2.2 = [] :=
  ⟨(getContainerImage_diagnostics (some "alice") (some "bob") initialOptions).1 rfl,
    (getContainerImage_diagnostics (some "alice") (some "bob") initialOptions).2.2.1,
    (getContainerImage_diagnostics (some "alice") (some "bob") initialOptions).2.2.2,
    (getContainerImage_diagnostics (some "alice") (some "bob")
      { initialOptions with ContainerImage := "img:1" }).2.1 (by decide)⟩

/-- C7: when `USER` is unset (or set to the empty string) and the raw
`ContainerImage` is empty, `GetContainerImage` does not fail: the identity
segment is empty and the result is the bare template, still non-empty. -/
theorem getContainerImage_missing_user (user : Option String)
    (opts : JobOptions) (h : opts.ContainerImage = "")
    (hu : user = none ∨ user = some "") :
    (GetContainerImage user opts).1 = "-docker-apache.bintray.io/beam/go:latest" ∧
    (GetContainerImage user opts).1 ≠ "" := by
  have hg : user.getD "" = "" := by
    rcases hu with h1 | h1 <;> simp [h1]
  have e1 : (GetContainerImage user opts).1 =
      "-docker-apache.bintray.io/beam/go:latest" := by
    simp [GetContainerImage, h, expandEnvUserTemplate, hg]
  refine ⟨e1, ?_⟩
  rw [e1]
  decide

/-- Witness for C7 with `USER` unset and the unset state. -/
theorem getContainerImage_missing_user_wit :
    (GetContainerImage none initialOptions).1 =
      "-docker-apache.bintray.io/beam/go:latest" ∧
    (GetContainerImage none initialOptions).1 ≠ "" :=
  getContainerImage_missing_user none initialOptions rfl (Or.inl rfl)

/-- C8: `GetExperiments` splits strictly on commas with no trimming and no
collapsing of empty tokens, maps the empty raw string to the empty sequence,
and preserves textual order: the four sample inputs from the specification
evaluate exactly as stated. -/
theorem getExperiments_examples :
    (GetExperiments { initialOptions with Experiments := "" }).1 = [] ∧
    (GetExperiments { initialOptions with Experiments := "a,b,c" }).1 =
      ["a", "b", "c"] ∧
    (GetExperiments { initialOptions with Experiments := "a,,b" }).1 =
      ["a", "", "b"] ∧
    (GetExperiments { initialOptions with Experiments := "a," }).1 = ["a", ""] := by
  refine ⟨rfl, ?_, ?_, ?_⟩ <;> decide

/-- C9: `GetExperiments` never writes any field back, and its result depends
only on the raw `Experiments` value at the moment of the call: after an
external mutation from `v₁` to `v₂`, a new call returns the split of `v₂`. -/
theorem getExperiments_no_caching (opts : JobOptions) (v₁ v₂ : String) :
    (GetExperiments { opts with Experiments := v₁ }).2 =
      { opts with Experiments := v₁ } ∧
    (GetExperiments
        { { opts with Experiments := v₁ } with Experiments := v₂ }).1 =
      (GetExperiments { opts with Experiments := v₂ }).1 ∧
    (GetExperiments opts).2 = opts := by
  refine ⟨?_, rfl, ?_⟩
  · by_cases h : v₁ = "" <;> simp [GetExperiments, h]
  · by_cases h : opts.Experiments = "" <;> simp [GetExperiments, h]

/-- C10: for a non-empty raw `Experiments` string, joining the returned
tokens with a single comma reconstructs the raw string exactly; consequently
the token list is non-empty and its length is the number of commas plus one. -/
theorem getExperiments_roundtrip (opts : JobOptions)
    (h : opts.Experiments ≠ "") :
    joinComma (GetExperiments opts).1 = opts.Experiments ∧
    (GetExperiments opts).1 ≠ [] ∧
    ((GetExperiments opts).1).length = opts.Experiments.data.count ',' + 1 := by
  have e : (GetExperiments opts).1 =
      (splitOnComma opts.Experiments.data).map String.mk := by
    simp [GetExperiments, h]
  refine ⟨?_, ?_, ?_⟩
  · rw [e, joinComma_map_mk, joinCommaL_splitOnComma]
  · rw [e]
    simp [splitOnComma_ne_nil]
  · rw [e, List.length_map, length_splitOnComma]

/-- Witness for C10 at `Experiments = "a,b"`. -/
theorem getExperiments_roundtrip_wit :
    joinComma (GetExperiments { initialOptions with Experiments := "a,b" }).1 =
      "a,b" ∧
    (GetExperiments { initialOptions with Experiments := "a,b" }).1 ≠ [] ∧
    ((GetExperiments { initialOptions with Experiments := "a,b" }).1).length =
      ("a,b" : String).data.count ',' + 1 :=
  getExperiments_roundtrip { initialOptions with Experiments := "a,b" } (by decide)

end Jobopts
